import Mathlib

/-!
Verification of the foodshop authentication core: a shallow embedding of the
token codec (internal/auth/jwt.go), the token blacklist
(auth.TokenBlacklist), the auth middleware (middleware.AuthMiddleware), the
user repository lockout operations (internal/database/user_repository.go),
the login/refresh handlers (internal/handler/auth.go), the startup secret
handling of both entry points, and the per-IP token-bucket rate limiter
(internal/middleware/ratelimit.go, bucket semantics from the spec since
golang.org/x/time/rate is an external dependency).

Machine times are modelled as `Nat` seconds (rationals for the rate
limiter).  Fallible Go calls return `Except`/`Option`.
-/

namespace Foodshop

/-- Signing algorithm in a token header.  `ValidateToken` accepts only the
HMAC family (`jwt.SigningMethodHMAC`); both generators sign with HS256. -/
inductive SigAlg where
  | hs256
  | hs384
  | hs512
  | rs256
  deriving DecidableEq, Repr

/-- The HMAC-family check performed by `ValidateToken`'s key function. -/
def SigAlg.isHMAC : SigAlg → Bool
  | .hs256 | .hs384 | .hs512 => true
  | .rs256 => false

/-- auth.Claims: UserID and Username plus the registered claims the
generators populate (ExpiresAt, IssuedAt, NotBefore, Issuer, Subject).
The token kind is carried by `issuer`: "foodshop" for access tokens,
"foodshop-refresh" for refresh tokens — jwt.go has no separate kind field. -/
structure Claims where
  userID : Int
  username : String
  issuer : String
  subject : String
  issuedAt : Nat
  notBefore : Nat
  expiresAt : Nat
  deriving DecidableEq, Repr

/-- A signed token.  The HMAC signature is abstracted as the signing secret
itself: verification under secret `s` succeeds exactly when the token was
signed with `s` (HMAC treated as collision-free). -/
structure Token where
  alg : SigAlg
  claims : Claims
  sig : String
  deriving DecidableEq, Repr

/-- GenerateToken's TTL: 24 hours, in seconds. -/
def accessTokenTTL : Nat := 24 * 60 * 60

/-- GenerateRefreshToken's TTL: 7 days, in seconds. -/
def refreshTokenTTL : Nat := 7 * 24 * 60 * 60

/-- auth.GenerateToken: HS256, issuer "foodshop", subject = username,
issued-at = not-before = now, expires-at = now + 24h. -/
def generateToken (now : Nat) (secret : String) (userID : Int)
    (username : String) : Token :=
  { alg := .hs256
    claims :=
      { userID := userID
        username := username
        issuer := "foodshop"
        subject := username
        issuedAt := now
        notBefore := now
        expiresAt := now + accessTokenTTL }
    sig := secret }

/-- auth.GenerateRefreshToken: HS256, issuer "foodshop-refresh",
expires-at = now + 7 days. -/
def generateRefreshToken (now : Nat) (secret : String) (userID : Int)
    (username : String) : Token :=
  { alg := .hs256
    claims :=
      { userID := userID
        username := username
        issuer := "foodshop-refresh"
        subject := username
        issuedAt := now
        notBefore := now
        expiresAt := now + refreshTokenTTL }
    sig := secret }

/-- auth.ValidateToken: requires an HMAC-family algorithm, a signature under
the process secret, and `now` inside the validity window (`nbf ≤ now` and
`now < exp`, the jwt/v5 time checks with zero leeway).  It performs no
issuer/kind check and no blacklist lookup. -/
def validateToken (now : Nat) (secret : String) (t : Token) : Option Claims :=
  if t.alg.isHMAC ∧ t.sig = secret ∧
      t.claims.notBefore ≤ now ∧ now < t.claims.expiresAt then
    some t.claims
  else
    none

/-- auth.TokenBlacklist.tokens: token → original expiry. -/
abbrev Blacklist := List (Token × Nat)

/-- TokenBlacklist.Add: map insert keyed by the token. -/
def blacklistAdd (bl : Blacklist) (t : Token) (expiresAt : Nat) : Blacklist :=
  (t, expiresAt) :: bl.filter (fun p => decide (p.1 ≠ t))

/-- TokenBlacklist.IsBlacklisted: membership, ignoring the stored expiry. -/
def isBlacklisted (bl : Blacklist) (t : Token) : Bool :=
  bl.any (fun p => decide (p.1 = t))

/-- Outcome of the authenticated-request check. -/
inductive AuthResult where
  | noBearer
  | revoked
  | invalid
  | ok (userID : Int) (username : String)
  deriving DecidableEq, Repr

/-- middleware.AuthMiddleware: `none` stands for a missing or malformed
Authorization header; otherwise the blacklist is consulted first, then
`ValidateToken`, and on success the claims' UserID and Username are exposed
to the handler through the request context. -/
def authMiddleware (bl : Blacklist) (secret : String) (now : Nat)
    (bearer : Option Token) : AuthResult :=
  match bearer with
  | none => .noBearer
  | some t =>
    if isBlacklisted bl t then .revoked
    else
      match validateToken now secret t with
      | none => .invalid
      | some c => .ok c.userID c.username

/-- models.User together with the lockout columns read by the repository
(failed_login_attempts, locked_until).  Timestamps are `Nat` seconds;
nullable columns are `Option`. -/
structure User where
  id : Int
  username : String
  password : String
  email : String
  isActive : Bool
  createdAt : Nat
  deactivedAt : Option Nat
  failedLoginAttempts : Int
  lockedUntil : Option Nat
  deriving DecidableEq, Repr

/-- The users table (rows in insertion order). -/
abbrev Db := List User

/-- The sentinel errors of internal/database. -/
inductive DbErr where
  | userNotFound
  | userExists
  | invalidCredentials
  | accountLocked
  deriving DecidableEq, Repr

/-- database.MaxLoginAttempts. -/
def maxLoginAttempts : Int := 5

/-- database.LockoutDuration (15 minutes), in seconds. -/
def lockoutDuration : Nat := 15 * 60

/-- Sqlite.GetUserByUsername: `SELECT ... WHERE username = ?` via QueryRow
(first matching row), `ErrUserNotFound` when absent — here the error case is
the `none` result at call sites. -/
def getUserByUsername (db : Db) (username : String) : Option User :=
  db.find? (fun u => decide (u.username = username))

/-- Sqlite.GetUserByID. -/
def getUserByID (db : Db) (id : Int) : Option User :=
  db.find? (fun u => decide (u.id = id))

/-- `UPDATE users SET ... WHERE username = ?`: applies `f` to every matching
row (the schema keeps usernames unique, so at most one row matches). -/
def updateByUsername (db : Db) (username : String) (f : User → User) : Db :=
  db.map (fun u => if u.username = username then f u else u)

/-- Used where the Go handler discards a repository call's error
(`db.IncrementFailedAttempts(...)`, `db.LockAccount(...)`,
`db.ResetFailedAttempts(...)`, `s.UnlockAccount(...)`): on error the
database is left as it was. -/
def ignoreErr (db : Db) (e : Except DbErr Db) : Db :=
  match e with
  | .ok db2 => db2
  | .error _ => db

/-- Sqlite.VerifyPassword: lookup, then active check, then hash comparison.
The bcrypt comparison is the spec's opaque
`verify(storedHash, plaintext) -> bool` capability, passed in as `verify`.
An inactive account fails with `ErrInvalidCredentials` before the password
is even compared. -/
def verifyPassword (verify : String → String → Bool) (db : Db)
    (username password : String) : Except DbErr User :=
  match getUserByUsername db username with
  | none => .error .userNotFound
  | some u =>
    if ¬ u.isActive then .error .invalidCredentials
    else if verify u.password password then .ok u
    else .error .invalidCredentials

/-- Sqlite.IncrementFailedAttempts: a bare UPDATE whose affected-row count is
never inspected — it succeeds (returns nil) even when no row matches. -/
def incrementFailedAttempts (db : Db) (username : String) : Except DbErr Db :=
  .ok (updateByUsername db username
    (fun u => { u with failedLoginAttempts := u.failedLoginAttempts + 1 }))

/-- Sqlite.LockAccount: sets locked_until = now + duration and reports
`ErrUserNotFound` when the UPDATE affected no row. -/
def lockAccount (db : Db) (now : Nat) (username : String)
    (durationSecs : Nat) : Except DbErr Db :=
  if (getUserByUsername db username).isSome then
    .ok (updateByUsername db username
      (fun u => { u with lockedUntil := some (now + durationSecs) }))
  else
    .error .userNotFound

/-- Sqlite.ResetFailedAttempts: zeroes the counter and clears locked_until;
the affected-row count is not inspected. -/
def resetFailedAttempts (db : Db) (username : String) : Except DbErr Db :=
  .ok (updateByUsername db username
    (fun u => { u with failedLoginAttempts := 0, lockedUntil := none }))

/-- Sqlite.UnlockAccount simply delegates to ResetFailedAttempts. -/
def unlockAccount (db : Db) (username : String) : Except DbErr Db :=
  resetFailedAttempts db username

/-- Sqlite.GetFailedAttempts: lookup, surfacing `ErrUserNotFound`. -/
def getFailedAttempts (db : Db) (username : String) : Except DbErr Int :=
  match getUserByUsername db username with
  | none => .error .userNotFound
  | some u => .ok u.failedLoginAttempts

/-- Sqlite.IsAccountLocked: `ErrUserNotFound` for a missing account;
`none` (unlocked) when locked_until is NULL; when locked_until is strictly
in the past (`time.Now().After`) it lazily unlocks — via UnlockAccount,
whose error return is discarded — and reports unlocked; otherwise reports
locked together with the lock's expiry.  The pair's second component is the
database after the call. -/
def isAccountLocked (db : Db) (now : Nat) (username : String) :
    Except DbErr (Option Nat) × Db :=
  match getUserByUsername db username with
  | none => (.error .userNotFound, db)
  | some u =>
    match u.lockedUntil with
    | none => (.ok none, db)
    | some lockedUntil =>
      if lockedUntil < now then (.ok none, ignoreErr db (unlockAccount db username))
      else (.ok (some lockedUntil), db)

/-- The externally distinguishable outcomes of handler.LoginHandler after
request decoding. -/
inductive LoginOutcome where
  | badInput (message : String)
  | internalErr
  | locked (minutes : Nat)
  | invalidRemaining (remaining : Int)
  | invalidGeneric
  | success (userID : Int) (username email : String) (tok refreshTok : Token)
  deriving DecidableEq, Repr

/-- The body of LoginHandler after the lockout gate: VerifyPassword, then
either the failure path (increment, re-read, lock at the threshold) or the
success path (reset counter, issue the access/refresh pair). -/
def loginVerifyStep (verify : String → String → Bool) (db : Db) (now : Nat)
    (secret : String) (username password : String) : LoginOutcome × Db :=
  match verifyPassword verify db username password with
  | .error .userNotFound => (.invalidGeneric, db)
  | .error _ =>
    let db2 := ignoreErr db (incrementFailedAttempts db username)
    let attempts :=
      match getFailedAttempts db2 username with
      | .ok a => a
      | .error _ => 0
    if maxLoginAttempts ≤ attempts then
      let db3 := ignoreErr db2 (lockAccount db2 now username lockoutDuration)
      (.locked (lockoutDuration / 60), db3)
    else
      (.invalidRemaining (maxLoginAttempts - attempts), db2)
  | .ok user =>
    let db2 := ignoreErr db (resetFailedAttempts db username)
    (.success user.id user.username user.email
      (generateToken now secret user.id user.username)
      (generateRefreshToken now secret user.id user.username), db2)

/-- handler.LoginHandler (after JSON decoding; `username` stands for the
already-sanitized username): empty-field checks, then IsAccountLocked —
`ErrUserNotFound` is tolerated, any other error is a 500, a live lock ends
the attempt with the truncated remaining minutes — then the verify step. -/
def loginHandler (verify : String → String → Bool) (db : Db) (now : Nat)
    (secret : String) (username password : String) : LoginOutcome × Db :=
  if username = "" then (.badInput "Username is required", db)
  else if password = "" then (.badInput "Password is required", db)
  else
    match isAccountLocked db now username with
    | (.error .userNotFound, db1) => loginVerifyStep verify db1 now secret username password
    | (.error _, db1) => (.internalErr, db1)
    | (.ok (some lockedUntil), db1) => (.locked ((lockedUntil - now) / 60), db1)
    | (.ok none, db1) => loginVerifyStep verify db1 now secret username password

/-- The HTTP status and message LoginHandler writes for each outcome, with
the exact format strings of the Go code. -/
def renderLogin : LoginOutcome → Nat × String
  | .badInput m => (400, m)
  | .internalErr => (500, "Internal server error")
  | .locked m =>
    (423, "Account locked due to too many failed login attempts. Try again in "
      ++ toString m ++ " minutes.")
  | .invalidRemaining r =>
    (401, "Invalid username or password. " ++ toString r ++ " attempts remaining.")
  | .invalidGeneric => (401, "Invalid username or password")
  | .success _ _ _ _ _ => (200, "Login successful")

/-- The externally distinguishable outcomes of handler.RefreshHandler. -/
inductive RefreshOutcome where
  | badRequest
  | invalidToken
  | userMissing
  | inactiveUser
  | success (userID : Int) (username email : String) (tok refreshTok : Token)
  deriving DecidableEq, Repr

/-- handler.RefreshHandler: decode (`none` = missing/empty refresh_token),
ValidateToken, require issuer "foodshop-refresh" (the kind check), re-resolve
the account by the embedded UserID, require it active, then issue a fresh
access/refresh pair. -/
def refreshHandler (db : Db) (now : Nat) (secret : String)
    (refreshToken : Option Token) : RefreshOutcome :=
  match refreshToken with
  | none => .badRequest
  | some t =>
    match validateToken now secret t with
    | none => .invalidToken
    | some c =>
      if c.issuer ≠ "foodshop-refresh" then .invalidToken
      else
        match getUserByID db c.userID with
        | none => .userMissing
        | some u =>
          if ¬ u.isActive then .inactiveUser
          else
            .success u.id u.username u.email
              (generateToken now secret u.id u.username)
              (generateRefreshToken now secret u.id u.username)

/-- jwt.go's compiled-in default secret, in force until SetJWTSecret runs. -/
def defaultJwtSecret : String := "your-secret-key-change-in-production"

/-- The secret hardcoded in src/cmd/web/main.go's main. -/
def cmdWebJwtSecret : String := "your-super-secret-jwt-key-change-in-production"

/-- Whether a process run gets past its secret initialization. -/
inductive StartupResult where
  | started (secret : String)
  | fatal (message : String)
  deriving DecidableEq, Repr

/-- The entry point that reads JWTSECRET from the environment (os.Getenv
yields "" when the variable is unset) and log.Fatals when it is empty. -/
def mainEnvStartup (envJwtSecret : String) : StartupResult :=
  if envJwtSecret = "" then .fatal "Missing JWT Secret"
  else .started envJwtSecret

/-- src/cmd/web/main.go's main: it never consults the environment and
unconditionally installs a hardcoded secret. -/
def mainWebStartup (_envJwtSecret : String) : StartupResult :=
  .started cmdWebJwtSecret

/-- Modelled from the spec: the token bucket of golang.org/x/time/rate
(`rate.Limiter`), an external library dependency whose source is not part of
this repository.  Spec §4.1: capacity `B` (burst), steady refill `R`
tokens/second; `Allow` lazily advances the bucket by the elapsed time and
atomically attempts to withdraw one token.  Time and token amounts are
rationals; `last` is the instant of the previous observation. -/
structure Bucket where
  limit : ℚ
  burst : ℚ
  tokens : ℚ
  last : ℚ
  deriving DecidableEq, Repr

/-- Modelled from the spec: rate.NewLimiter — a fresh bucket is created
full. -/
def newLimiter (limit burst : ℚ) (now : ℚ) : Bucket :=
  { limit := limit, burst := burst, tokens := burst, last := now }

/-- Modelled from the spec: `Allow` refills `limit` tokens per elapsed
second, caps at `burst`, and withdraws one token when one is available. -/
def bucketAllow (b : Bucket) (now : ℚ) : Bool × Bucket :=
  let avail := min b.burst (b.tokens + b.limit * (now - b.last))
  if 1 ≤ avail then
    (true, { b with tokens := avail - 1, last := now })
  else
    (false, { b with tokens := avail, last := now })

/-- A sequence of `Allow` calls at the given instants; returns how many were
admitted and the final bucket. -/
def allowRun (b : Bucket) (ts : List ℚ) : Nat × Bucket :=
  match ts with
  | [] => (0, b)
  | t :: rest =>
    let r1 := bucketAllow b t
    let r2 := allowRun r1.2 rest
    ((if r1.1 then 1 else 0) + r2.1, r2.2)

/-- middleware: a visitor couples its limiter with a last-activity stamp. -/
structure Visitor where
  limiter : Bucket
  lastSeen : ℚ
  deriving DecidableEq, Repr

/-- middleware.RateLimiter: the visitor registry plus its configuration. -/
structure RateLimiter where
  visitors : List (String × Visitor)
  rate : ℚ
  burst : ℚ
  deriving DecidableEq, Repr

/-- middleware.NewRateLimiter: empty registry with the given rate/burst. -/
def newRateLimiter (rps burst : ℚ) : RateLimiter :=
  { visitors := [], rate := rps, burst := burst }

/-- RateLimiter.getVisitor: an unseen identity gets a freshly created (full)
bucket; a known one has its lastSeen stamp refreshed and its existing bucket
returned. -/
def getVisitor (rl : RateLimiter) (ip : String) (now : ℚ) :
    Bucket × RateLimiter :=
  match rl.visitors.find? (fun p => decide (p.1 = ip)) with
  | none =>
    let b := newLimiter rl.rate rl.burst now
    (b, { rl with visitors := (ip, { limiter := b, lastSeen := now }) :: rl.visitors })
  | some p =>
    (p.2.limiter,
      { rl with
        visitors := rl.visitors.map
          (fun q => if q.1 = ip then (q.1, { q.2 with lastSeen := now }) else q) })

/-- A concrete account used to instantiate hypotheses in closed statements. -/
def sampleUser : User :=
  { id := 1, username := "alice", password := "pw", email := "alice@example.com",
    isActive := true, createdAt := 0, deactivedAt := none,
    failedLoginAttempts := 0, lockedUntil := none }

/-- String equality as one concrete instance of the opaque
`verify(storedHash, plaintext)` capability. -/
def eqVerify : String → String → Bool :=
  fun storedHash candidate => storedHash == candidate

theorem getUserByUsername_username (db : Db) (n : String) (u : User)
    (h : getUserByUsername db n = some u) : u.username = n := by
  have := List.find?_some h
  simpa using this

theorem getUserByUsername_updateByUsername (db : Db) (n m : String)
    (f : User → User) (hf : ∀ v, (f v).username = v.username) :
    getUserByUsername (updateByUsername db n f) m =
      Option.map (fun v => if v.username = n then f v else v)
        (getUserByUsername db m) := by
  induction db with
  | nil => rfl
  | cons u rest ih =>
    have hu : (if u.username = n then f u else u).username = u.username := by
      by_cases hn : u.username = n <;> simp [hn, hf u]
    unfold getUserByUsername updateByUsername at *
    rw [List.map_cons]
    by_cases hm : u.username = m
    · rw [List.find?_cons_of_pos _ (by simpa [hu] using hm),
        List.find?_cons_of_pos _ (by simpa using hm)]
      rfl
    · rw [List.find?_cons_of_neg _ (by simpa [hu] using hm),
        List.find?_cons_of_neg _ (by simpa using hm)]
      exact ih

theorem updateByUsername_not_found (db : Db) (n : String) (f : User → User)
    (h : getUserByUsername db n = none) : updateByUsername db n f = db := by
  induction db with
  | nil => rfl
  | cons u rest ih =>
    simp only [getUserByUsername, List.find?_cons] at h
    by_cases hn : u.username = n
    · simp [hn] at h
    · simp only [updateByUsername, List.map_cons, if_neg hn] at *
      rw [ih (by simpa [getUserByUsername, hn] using h)]

/-- C8: for every user id, username and kind, validating a freshly issued
token with the same secret succeeds immediately, and the decoded claims
carry the input user id, username and kind (the kind being the issuer
written by the corresponding generator). -/
theorem issue_validate_roundtrip (now : Nat) (secret : String) (uid : Int)
    (uname : String) :
    validateToken now secret (generateToken now secret uid uname) =
      some { userID := uid, username := uname, issuer := "foodshop",
             subject := uname, issuedAt := now, notBefore := now,
             expiresAt := now + accessTokenTTL } ∧
    validateToken now secret (generateRefreshToken now secret uid uname) =
      some { userID := uid, username := uname, issuer := "foodshop-refresh",
             subject := uname, issuedAt := now, notBefore := now,
             expiresAt := now + refreshTokenTTL } := by
  constructor <;>
  · rw [validateToken, if_pos]
    · rfl
    · exact ⟨rfl, rfl, le_refl now,
        Nat.lt_add_of_pos_right (by norm_num [accessTokenTTL, refreshTokenTTL])⟩

theorem authMiddleware_some (bl : Blacklist) (secret : String) (now : Nat)
    (t : Token) :
    authMiddleware bl secret now (some t) =
      if isBlacklisted bl t then .revoked
      else
        match validateToken now secret t with
        | none => .invalid
        | some c => .ok c.userID c.username := rfl

/-- C1 counterexample: a signature-valid, unexpired, unrevoked refresh-kind
token (issuer "foodshop-refresh") is accepted by the auth middleware for
resource access, contradicting the claim that the authenticated-request
check rejects every refresh-kind token. -/
theorem refresh_kind_accepted_cex :
    authMiddleware [] "secret" 0 (some (generateRefreshToken 0 "secret" 7 "bob"))
      = .ok 7 "bob" := by
  rfl

/-- C1 (amended): the auth middleware applies no kind check at all — an
unrevoked, signature-valid, unexpired refresh-kind token is accepted for
resource access exactly like an access token; the only kind check in the
code is in the refresh operation, which rejects validated tokens whose
issuer is not "foodshop-refresh". -/
theorem refresh_kind_not_checked (bl : Blacklist) (db : Db) (secret : String)
    (now : Nat) (uid : Int) (uname : String)
    (h : isBlacklisted bl (generateRefreshToken now secret uid uname) = false) :
    authMiddleware bl secret now (some (generateRefreshToken now secret uid uname))
      = .ok uid uname ∧
    (∀ (t : Token) (c : Claims), validateToken now secret t = some c →
      c.issuer ≠ "foodshop-refresh" →
      refreshHandler db now secret (some t) = .invalidToken) := by
  constructor
  · have hv : validateToken now secret (generateRefreshToken now secret uid uname) =
        some (generateRefreshToken now secret uid uname).claims := by
      rw [validateToken, if_pos]
      exact ⟨rfl, rfl, le_refl now,
        Nat.lt_add_of_pos_right (by norm_num [refreshTokenTTL])⟩
    rw [authMiddleware_some, h, if_neg (by simp), hv]
    rfl
  · intro t c hv hiss
    simp only [refreshHandler, hv]
    rw [if_pos hiss]

theorem refresh_kind_not_checked_witness :
    authMiddleware [] "k" 5 (some (generateRefreshToken 5 "k" 2 "carol")) = .ok 2 "carol" ∧
    refreshHandler [] 5 "k" (some (generateToken 5 "k" 2 "carol")) = .invalidToken := by
  obtain ⟨h1, h2⟩ := refresh_kind_not_checked [] [] "k" 5 2 "carol" rfl
  exact ⟨h1, h2 (generateToken 5 "k" 2 "carol")
    { userID := 2, username := "carol", issuer := "foodshop", subject := "carol",
      issuedAt := 5, notBefore := 5, expiresAt := 5 + accessTokenTTL }
    rfl (by decide)⟩

/-- C2 counterexample: with no secret configured anywhere (empty
environment), the cmd/web entry point starts anyway, and a token issued
under its hardcoded secret validates — startup does not fail. -/
theorem startup_without_secret_cex :
    mainWebStartup "" = .started cmdWebJwtSecret ∧
    validateToken 0 cmdWebJwtSecret (generateToken 0 cmdWebJwtSecret 1 "alice") =
      some { userID := 1, username := "alice", issuer := "foodshop",
             subject := "alice", issuedAt := 0, notBefore := 0,
             expiresAt := accessTokenTTL } := by
  exact ⟨rfl, rfl⟩

/-- C2 (amended): the environment-reading entry point does refuse to start
when JWTSECRET is unset (os.Getenv yields ""), but the cmd/web entry point
starts unconditionally with a compiled-in secret, and the token codec's own
compiled-in default secret validates tokens when no secret is ever set. -/
theorem startup_secret_enforcement (s : String) (hs : s ≠ "") :
    mainEnvStartup "" = .fatal "Missing JWT Secret" ∧
    mainEnvStartup s = .started s ∧
    mainWebStartup s = .started cmdWebJwtSecret ∧
    validateToken 0 defaultJwtSecret (generateToken 0 defaultJwtSecret 1 s) =
      some (generateToken 0 defaultJwtSecret 1 s).claims := by
  refine ⟨rfl, ?_, rfl, ?_⟩
  · simp [mainEnvStartup, hs]
  · rw [validateToken, if_pos]
    exact ⟨rfl, rfl, le_refl 0,
      Nat.lt_add_of_pos_right (by norm_num [accessTokenTTL])⟩

theorem startup_secret_enforcement_witness :
    mainEnvStartup "" = .fatal "Missing JWT Secret" ∧
    mainEnvStartup "k" = .started "k" ∧
    mainWebStartup "k" = .started cmdWebJwtSecret ∧
    validateToken 0 defaultJwtSecret (generateToken 0 defaultJwtSecret 1 "k") =
      some (generateToken 0 defaultJwtSecret 1 "k").claims := by
  exact startup_secret_enforcement "k" (by decide)

/-- C6: a token added to the revocation registry is rejected as revoked by
the auth middleware — before any signature or expiry check, hence for every
`now`, expired or not — and an unrevoked token that validates is accepted
with the embedded user id and username exposed. -/
theorem revocation_precedence (bl : Blacklist) (secret : String)
    (now expiresAt : Nat) (t : Token) :
    authMiddleware (blacklistAdd bl t expiresAt) secret now (some t) = .revoked ∧
    (∀ c : Claims, isBlacklisted bl t = false → validateToken now secret t = some c →
      authMiddleware bl secret now (some t) = .ok c.userID c.username) := by
  constructor
  · simp [authMiddleware, isBlacklisted, blacklistAdd]
  · intro c hb hv
    simp [authMiddleware, hb, hv]

theorem revocation_precedence_witness :
    authMiddleware (blacklistAdd [] (generateToken 0 "w" 3 "dave") accessTokenTTL)
      "w" 0 (some (generateToken 0 "w" 3 "dave")) = .revoked ∧
    authMiddleware [] "w" 0 (some (generateToken 0 "w" 3 "dave")) = .ok 3 "dave" := by
  obtain ⟨h1, h2⟩ :=
    revocation_precedence [] "w" 0 accessTokenTTL (generateToken 0 "w" 3 "dave")
  exact ⟨h1, h2 (generateToken 0 "w" 3 "dave").claims rfl rfl⟩

/-- C7: for an account that does not exist, IncrementFailedAttempts succeeds
silently without changing any state, while IsAccountLocked and
GetFailedAttempts report `ErrUserNotFound`, distinct from any unlocked
result. -/
theorem lockout_missing_account (db : Db) (now : Nat) (username : String)
    (h : getUserByUsername db username = none) :
    incrementFailedAttempts db username = .ok db ∧
    isAccountLocked db now username = (.error .userNotFound, db) ∧
    getFailedAttempts db username = .error .userNotFound := by
  refine ⟨?_, ?_, ?_⟩
  · simp [incrementFailedAttempts, updateByUsername_not_found db username _ h]
  · simp [isAccountLocked, h]
  · simp [getFailedAttempts, h]

theorem lockout_missing_account_witness :
    incrementFailedAttempts [sampleUser] "ghost" = .ok [sampleUser] ∧
    isAccountLocked [sampleUser] 0 "ghost" = (.error .userNotFound, [sampleUser]) ∧
    getFailedAttempts [sampleUser] "ghost" = .error .userNotFound := by
  exact lockout_missing_account [sampleUser] 0 "ghost" (by decide)

/-- C5: for an existing account, IsAccountLocked returns the literal state —
unlocked when locked_until is NULL, locked with its expiry when the lock is
still live — except that a locked_until strictly in the past triggers a lazy
clear in the same call: failed_attempts is reset to 0, locked_until is
cleared, and the result is unlocked. -/
theorem checkLock_lazy_clear (db : Db) (now : Nat) (username : String)
    (u : User) (h : getUserByUsername db username = some u) :
    (u.lockedUntil = none → isAccountLocked db now username = (.ok none, db)) ∧
    (∀ tl : Nat, u.lockedUntil = some tl → tl < now →
      (isAccountLocked db now username).1 = .ok none ∧
      getUserByUsername (isAccountLocked db now username).2 username =
        some { u with failedLoginAttempts := 0, lockedUntil := none }) ∧
    (∀ tl : Nat, u.lockedUntil = some tl → now ≤ tl →
      isAccountLocked db now username = (.ok (some tl), db)) := by
  refine ⟨?_, ?_, ?_⟩
  · intro hn
    simp [isAccountLocked, h, hn]
  · intro tl htl hlt
    have hclear : getUserByUsername
        (updateByUsername db username
          (fun v => { v with failedLoginAttempts := 0, lockedUntil := none }))
        username = some { u with failedLoginAttempts := 0, lockedUntil := none } := by
      rw [getUserByUsername_updateByUsername db username username
        (fun v => { v with failedLoginAttempts := 0, lockedUntil := none })
        (fun v => rfl), h]
      simp [getUserByUsername_username db username u h]
    constructor
    · simp [isAccountLocked, h, htl, hlt]
    · simpa [isAccountLocked, h, htl, hlt, ignoreErr, unlockAccount,
        resetFailedAttempts] using hclear
  · intro tl htl hle
    simp [isAccountLocked, h, htl, Nat.not_lt.mpr hle]

/-- `sampleUser` with an expired lock and a saturated failure counter. -/
def lockedSampleUser : User :=
  { sampleUser with lockedUntil := some 10, failedLoginAttempts := 5 }

theorem checkLock_lazy_clear_witness :
    (isAccountLocked [lockedSampleUser] 20 "alice").1 = .ok none ∧
    getUserByUsername (isAccountLocked [lockedSampleUser] 20 "alice").2 "alice" =
      some { lockedSampleUser with failedLoginAttempts := 0, lockedUntil := none } := by
  obtain ⟨-, h2, -⟩ :=
    checkLock_lazy_clear [lockedSampleUser] 20 "alice" lockedSampleUser rfl
  exact h2 10 rfl (by decide)

/-- The failure branch shared by the login theorems: when VerifyPassword
reports invalid credentials for an account present in the database, the
verify step increments the counter, re-reads it, and either locks (at or
above the threshold) or reports the remaining attempts. -/
theorem loginVerifyStep_failure (verify : String → String → Bool) (db1 : Db)
    (now : Nat) (secret : String) (username password : String) (u : User)
    (hfind : getUserByUsername db1 username = some u)
    (hverify : verifyPassword verify db1 username password =
      .error .invalidCredentials) :
    (maxLoginAttempts ≤ u.failedLoginAttempts + 1 →
      (loginVerifyStep verify db1 now secret username password).1 = .locked 15 ∧
      getUserByUsername (loginVerifyStep verify db1 now secret username password).2
          username =
        some { u with failedLoginAttempts := u.failedLoginAttempts + 1,
                      lockedUntil := some (now + lockoutDuration) }) ∧
    (u.failedLoginAttempts + 1 < maxLoginAttempts →
      (loginVerifyStep verify db1 now secret username password).1 =
        .invalidRemaining (maxLoginAttempts - (u.failedLoginAttempts + 1)) ∧
      getUserByUsername (loginVerifyStep verify db1 now secret username password).2
          username =
        some { u with failedLoginAttempts := u.failedLoginAttempts + 1 }) := by
  have hname : u.username = username := getUserByUsername_username db1 username u hfind
  have hinc : getUserByUsername
      (updateByUsername db1 username
        (fun v => { v with failedLoginAttempts := v.failedLoginAttempts + 1 }))
      username =
      some { u with failedLoginAttempts := u.failedLoginAttempts + 1 } := by
    rw [getUserByUsername_updateByUsername db1 username username
      (fun v => { v with failedLoginAttempts := v.failedLoginAttempts + 1 })
      (fun v => rfl), hfind]
    simp [hname]
  have hlockdb : getUserByUsername
      (updateByUsername
        (updateByUsername db1 username
          (fun v => { v with failedLoginAttempts := v.failedLoginAttempts + 1 }))
        username (fun v => { v with lockedUntil := some (now + lockoutDuration) }))
      username =
      some { u with failedLoginAttempts := u.failedLoginAttempts + 1,
                    lockedUntil := some (now + lockoutDuration) } := by
    rw [getUserByUsername_updateByUsername _ username username
      (fun v => { v with lockedUntil := some (now + lockoutDuration) })
      (fun v => rfl), hinc]
    simp [hname]
  constructor
  · intro hge
    simp only [loginVerifyStep, hverify, incrementFailedAttempts, ignoreErr,
      getFailedAttempts, hinc, lockAccount, Option.isSome_some, if_pos hge, if_true]
    refine ⟨by norm_num [lockoutDuration], ?_⟩
    simpa using hlockdb
  · intro hlt
    simp only [loginVerifyStep, hverify, incrementFailedAttempts, ignoreErr,
      getFailedAttempts, hinc, if_neg (not_le.mpr hlt)]
    exact ⟨trivial, trivial⟩

theorem loginHandler_eq_verifyStep (verify : String → String → Bool) (db : Db)
    (now : Nat) (secret : String) (username password : String)
    (hu : username ≠ "") (hp : password ≠ "")
    (hlock : (isAccountLocked db now username).1 = .ok none ∨
      (isAccountLocked db now username).1 = .error .userNotFound) :
    loginHandler verify db now secret username password =
      loginVerifyStep verify (isAccountLocked db now username).2 now secret
        username password := by
  rcases hlock with hlock | hlock
  · have e : isAccountLocked db now username =
        (Except.ok none, (isAccountLocked db now username).2) := by
      rw [← hlock]
    rw [loginHandler, if_neg hu, if_neg hp, e]
  · have e : isAccountLocked db now username =
        (Except.error DbErr.userNotFound, (isAccountLocked db now username).2) := by
      rw [← hlock]
    rw [loginHandler, if_neg hu, if_neg hp, e]

/-- C4: on an unlocked existing account whose password verification fails,
the handler increments and re-reads the failed-attempt counter; if the
post-increment count has reached the threshold 5 the account row gets
locked_until = now + LockoutDuration (15 minutes) and the outcome is the
locked response carrying 15 minutes; otherwise the outcome is invalid
credentials with attempts_remaining = threshold − attempts. -/
theorem login_failure_counts_and_locks (verify : String → String → Bool)
    (db : Db) (now : Nat) (secret : String) (username password : String)
    (u : User) (hu : username ≠ "") (hp : password ≠ "")
    (hlock : (isAccountLocked db now username).1 = .ok none)
    (hfind : getUserByUsername (isAccountLocked db now username).2 username = some u)
    (hverify : verifyPassword verify (isAccountLocked db now username).2 username
      password = .error .invalidCredentials) :
    (maxLoginAttempts ≤ u.failedLoginAttempts + 1 →
      (loginHandler verify db now secret username password).1 = .locked 15 ∧
      getUserByUsername (loginHandler verify db now secret username password).2
          username =
        some { u with failedLoginAttempts := u.failedLoginAttempts + 1,
                      lockedUntil := some (now + lockoutDuration) }) ∧
    (u.failedLoginAttempts + 1 < maxLoginAttempts →
      (loginHandler verify db now secret username password).1 =
        .invalidRemaining (maxLoginAttempts - (u.failedLoginAttempts + 1)) ∧
      getUserByUsername (loginHandler verify db now secret username password).2
          username =
        some { u with failedLoginAttempts := u.failedLoginAttempts + 1 }) := by
  rw [loginHandler_eq_verifyStep verify db now secret username password hu hp
    (.inl hlock)]
  exact loginVerifyStep_failure verify _ now secret username password u hfind hverify

/-- `sampleUser` one failed attempt away from the lockout threshold. -/
def nearLockUser : User := { sampleUser with failedLoginAttempts := 4 }

theorem login_failure_counts_and_locks_witness :
    (loginHandler eqVerify [nearLockUser] 0 "s" "alice" "wrong").1 = .locked 15 ∧
    getUserByUsername (loginHandler eqVerify [nearLockUser] 0 "s" "alice" "wrong").2
        "alice" =
      some { nearLockUser with failedLoginAttempts := 5, lockedUntil := some 900 } := by
  obtain ⟨h1, -⟩ := login_failure_counts_and_locks eqVerify [nearLockUser] 0 "s"
    "alice" "wrong" nearLockUser (by decide) (by decide) rfl rfl rfl
  exact h1 (by decide)

/-- C10: a login against an existing but deactivated account — even with the
correct password — takes the failed-credentials path: the counter is
incremented, the outcome is the generic-looking invalid-credentials response
(never a distinct inactive-account outcome), and once the incremented count
reaches the threshold the deactivated account is driven into the Locked
state. -/
theorem login_deactivated_account (verify : String → String → Bool) (db : Db)
    (now : Nat) (secret : String) (username password : String) (u : User)
    (hu : username ≠ "") (hp : password ≠ "")
    (hfind : getUserByUsername db username = some u)
    (hinactive : u.isActive = false)
    (hnolock : u.lockedUntil = none)
    (hpw : verify u.password password = true) :
    (maxLoginAttempts ≤ u.failedLoginAttempts + 1 →
      (loginHandler verify db now secret username password).1 = .locked 15 ∧
      getUserByUsername (loginHandler verify db now secret username password).2
          username =
        some { u with failedLoginAttempts := u.failedLoginAttempts + 1,
                      lockedUntil := some (now + lockoutDuration) }) ∧
    (u.failedLoginAttempts + 1 < maxLoginAttempts →
      (loginHandler verify db now secret username password).1 =
        .invalidRemaining (maxLoginAttempts - (u.failedLoginAttempts + 1)) ∧
      getUserByUsername (loginHandler verify db now secret username password).2
          username =
        some { u with failedLoginAttempts := u.failedLoginAttempts + 1 }) := by
  have hlock : isAccountLocked db now username = (.ok none, db) := by
    simp [isAccountLocked, hfind, hnolock]
  have hverify : verifyPassword verify db username password =
      .error .invalidCredentials := by
    simp [verifyPassword, hfind, hinactive]
  rw [loginHandler_eq_verifyStep verify db now secret username password hu hp
    (.inl (by rw [hlock])),
    show (isAccountLocked db now username).2 = db from by rw [hlock]]
  exact loginVerifyStep_failure verify db now secret username password u hfind hverify

/-- `sampleUser` deactivated (soft-deleted). -/
def inactiveSampleUser : User := { sampleUser with isActive := false }

theorem login_deactivated_account_witness :
    (loginHandler eqVerify [inactiveSampleUser] 0 "s" "alice" "pw").1 =
      .invalidRemaining 4 ∧
    getUserByUsername
        (loginHandler eqVerify [inactiveSampleUser] 0 "s" "alice" "pw").2 "alice" =
      some { inactiveSampleUser with failedLoginAttempts := 1 } := by
  obtain ⟨-, h2⟩ := login_deactivated_account eqVerify [inactiveSampleUser] 0 "s"
    "alice" "pw" inactiveSampleUser (by decide) (by decide) rfl rfl rfl rfl
  exact h2 (by decide)

/-- C3 counterexample: a wrong password on the existing account "alice"
renders 401 with an attempts-remaining hint, while the nonexistent account
"bob" renders 401 without it — the two externally visible responses differ,
so the outcome is not identical and reveals whether the account exists. -/
theorem invalid_credentials_distinguishable_cex :
    renderLogin (loginHandler eqVerify [sampleUser] 0 "s" "alice" "wrong").1 =
      (401, "Invalid username or password. 4 attempts remaining.") ∧
    renderLogin (loginHandler eqVerify [sampleUser] 0 "s" "bob" "wrong").1 =
      (401, "Invalid username or password") ∧
    renderLogin (loginHandler eqVerify [sampleUser] 0 "s" "alice" "wrong").1 ≠
      renderLogin (loginHandler eqVerify [sampleUser] 0 "s" "bob" "wrong").1 := by
  refine ⟨?_, ?_, ?_⟩ <;> decide

/-- C3 (amended): both bad-credential outcomes are HTTP 401 and both
messages begin "Invalid username or password", but the existing-account
wrong-password path appends the attempts-remaining hint while the
nonexistent-account path does not, so the responses are distinguishable and
account existence leaks through the hint. -/
theorem invalid_credentials_hint_difference (verify : String → String → Bool)
    (db : Db) (now : Nat) (secret : String) (username password : String)
    (u : User) (hu : username ≠ "") (hp : password ≠ "") :
    (getUserByUsername db username = none →
      loginHandler verify db now secret username password = (.invalidGeneric, db) ∧
      renderLogin .invalidGeneric = (401, "Invalid username or password")) ∧
    (getUserByUsername db username = some u → u.isActive = true →
      u.lockedUntil = none → verify u.password password = false →
      u.failedLoginAttempts + 1 < maxLoginAttempts →
      (loginHandler verify db now secret username password).1 =
        .invalidRemaining (maxLoginAttempts - (u.failedLoginAttempts + 1)) ∧
      renderLogin (.invalidRemaining (maxLoginAttempts - (u.failedLoginAttempts + 1))) =
        (401, "Invalid username or password. " ++
          toString (maxLoginAttempts - (u.failedLoginAttempts + 1)) ++
          " attempts remaining.")) := by
  constructor
  · intro hnone
    have hlock : isAccountLocked db now username = (.error .userNotFound, db) := by
      simp [isAccountLocked, hnone]
    have hv : verifyPassword verify db username password = .error .userNotFound := by
      simp [verifyPassword, hnone]
    rw [loginHandler_eq_verifyStep verify db now secret username password hu hp
      (.inr (by rw [hlock])),
      show (isAccountLocked db now username).2 = db from by rw [hlock]]
    refine ⟨?_, rfl⟩
    simp only [loginVerifyStep, hv]
  · intro hfind hact hnolock hpw hlt
    have hlock : isAccountLocked db now username = (.ok none, db) := by
      simp [isAccountLocked, hfind, hnolock]
    have hverify : verifyPassword verify db username password =
        .error .invalidCredentials := by
      simp [verifyPassword, hfind, hact, hpw]
    rw [loginHandler_eq_verifyStep verify db now secret username password hu hp
      (.inl (by rw [hlock])),
      show (isAccountLocked db now username).2 = db from by rw [hlock]]
    obtain ⟨-, h2⟩ :=
      loginVerifyStep_failure verify db now secret username password u hfind hverify
    exact ⟨(h2 hlt).1, rfl⟩

theorem invalid_credentials_hint_difference_witness :
    loginHandler eqVerify [sampleUser] 0 "s" "bob" "wrong" =
      (.invalidGeneric, [sampleUser]) ∧
    (loginHandler eqVerify [sampleUser] 0 "s" "alice" "wrong").1 =
      .invalidRemaining 4 := by
  obtain ⟨h1, -⟩ := invalid_credentials_hint_difference eqVerify [sampleUser] 0 "s"
    "bob" "wrong" sampleUser (by decide) (by decide)
  obtain ⟨-, h2⟩ := invalid_credentials_hint_difference eqVerify [sampleUser] 0 "s"
    "alice" "wrong" sampleUser (by decide) (by decide)
  exact ⟨(h1 rfl).1, (h2 rfl rfl rfl rfl (by decide)).1⟩

/-- The token-bucket conservation bound: over any time-ordered call
sequence, the number of admissions plus the tokens left never exceeds the
initial tokens plus what the refill rate pays in over the elapsed time;
tokens stay nonnegative, time moves forward, and the final observation
instant is either the initial one or one of the call instants. -/
theorem allowRun_bound (ts : List ℚ) : ∀ b : Bucket,
    0 ≤ b.limit → 0 ≤ b.burst → 0 ≤ b.tokens →
    List.Chain' (· ≤ ·) (b.last :: ts) →
    ((allowRun b ts).1 : ℚ) + (allowRun b ts).2.tokens ≤
        b.tokens + b.limit * ((allowRun b ts).2.last - b.last) ∧
      0 ≤ (allowRun b ts).2.tokens ∧
      b.last ≤ (allowRun b ts).2.last ∧
      ((allowRun b ts).2.last = b.last ∨ (allowRun b ts).2.last ∈ ts) := by
  induction ts with
  | nil =>
    intro b _ _ htok _
    refine ⟨?_, htok, le_refl _, .inl rfl⟩
    simp [allowRun]
  | cons t rest ih =>
    intro b hlim hburst htok hchain
    obtain ⟨hle, hchain2⟩ := List.chain'_cons.mp hchain
    set avail := min b.burst (b.tokens + b.limit * (t - b.last)) with havail
    have havail0 : 0 ≤ avail :=
      le_min hburst (add_nonneg htok (mul_nonneg hlim (sub_nonneg.mpr hle)))
    have havail1 : avail ≤ b.tokens + b.limit * (t - b.last) := min_le_right _ _
    by_cases hone : (1:ℚ) ≤ avail
    · have hba : bucketAllow b t = (true, { b with tokens := avail - 1, last := t }) := by
        simp only [bucketAllow]
        rw [← havail, if_pos hone]
      obtain ⟨ih1, ih2, ih3, ih4⟩ :=
        ih { b with tokens := avail - 1, last := t } hlim hburst
          (by show (0:ℚ) ≤ avail - 1; linarith) hchain2
      dsimp only at ih1 ih2 ih3 ih4
      have hrun : allowRun b (t :: rest) =
          (1 + (allowRun { b with tokens := avail - 1, last := t } rest).1,
            (allowRun { b with tokens := avail - 1, last := t } rest).2) := by
        simp only [allowRun, hba, if_true]
      rw [hrun]
      refine ⟨?_, ih2, le_trans hle ih3, ?_⟩
      · have hring : b.limit *
              ((allowRun { b with tokens := avail - 1, last := t } rest).2.last - t) +
            b.limit * (t - b.last) =
            b.limit *
              ((allowRun { b with tokens := avail - 1, last := t } rest).2.last - b.last) := by
          ring
        push_cast
        linarith [ih1, havail1]
      · rcases ih4 with h | h
        · exact .inr (by rw [h]; exact List.mem_cons_self t rest)
        · exact .inr (List.mem_cons_of_mem t h)
    · have hba : bucketAllow b t = (false, { b with tokens := avail, last := t }) := by
        simp only [bucketAllow]
        rw [← havail, if_neg hone]
      obtain ⟨ih1, ih2, ih3, ih4⟩ :=
        ih { b with tokens := avail, last := t } hlim hburst havail0 hchain2
      dsimp only at ih1 ih2 ih3 ih4
      have hrun : allowRun b (t :: rest) =
          ((allowRun { b with tokens := avail, last := t } rest).1,
            (allowRun { b with tokens := avail, last := t } rest).2) := by
        simp [allowRun, hba]
      rw [hrun]
      refine ⟨?_, ih2, le_trans hle ih3, ?_⟩
      · have hring : b.limit *
              ((allowRun { b with tokens := avail, last := t } rest).2.last - t) +
            b.limit * (t - b.last) =
            b.limit *
              ((allowRun { b with tokens := avail, last := t } rest).2.last - b.last) := by
          ring
        linarith [ih1, havail1]
      · rcases ih4 with h | h
        · exact .inr (by rw [h]; exact List.mem_cons_self t rest)
        · exact .inr (List.mem_cons_of_mem t h)

/-- C9: with the configuration main passes to NewRateLimiter (rate 10/sec,
burst 20): the bucket created on first sight of an identity is full
(20 tokens), and over any time-ordered sequence of Allow calls lying within
a window of length T that starts at the bucket's creation, the number of
admitted requests is at most 20 + 10·T — at most the burst of 20 when all
calls arrive instantaneously (T = 0), and thereafter bounded by the refill
rate of 10 per second. -/
theorem rate_limit_burst_and_refill (ip : String) (t0 T : ℚ) (ts : List ℚ)
    (hT : 0 ≤ T) (hchain : List.Chain' (· ≤ ·) (t0 :: ts))
    (hub : ∀ t ∈ ts, t ≤ t0 + T) :
    (getVisitor (newRateLimiter 10 20) ip t0).1.tokens = 20 ∧
    ((allowRun (getVisitor (newRateLimiter 10 20) ip t0).1 ts).1 : ℚ) ≤
      20 + 10 * T := by
  have hb : (getVisitor (newRateLimiter 10 20) ip t0).1 = newLimiter 10 20 t0 := rfl
  refine ⟨rfl, ?_⟩
  rw [hb]
  obtain ⟨h1, h2, h3, h4⟩ := allowRun_bound ts (newLimiter 10 20 t0)
    (by norm_num [newLimiter]) (by norm_num [newLimiter])
    (by norm_num [newLimiter]) hchain
  rw [show (newLimiter 10 20 t0).tokens = 20 from rfl,
    show (newLimiter 10 20 t0).limit = 10 from rfl,
    show (newLimiter 10 20 t0).last = t0 from rfl] at h1
  have hlast : (allowRun (newLimiter 10 20 t0) ts).2.last ≤ t0 + T := by
    rcases h4 with h | h
    · rw [h, show (newLimiter 10 20 t0).last = t0 from rfl]; linarith
    · exact hub _ h
  linarith [h1, h2, hlast]

theorem rate_limit_burst_and_refill_witness :
    (getVisitor (newRateLimiter 10 20) "203.0.113.9" 0).1.tokens = 20 ∧
    ((allowRun (getVisitor (newRateLimiter 10 20) "203.0.113.9" 0).1
        [0, 0, 1]).1 : ℚ) ≤ 20 + 10 * 1 := by
  refine rate_limit_burst_and_refill "203.0.113.9" 0 1 [0, 0, 1] (by norm_num)
    ?_ ?_
  · refine List.Chain'.cons (by norm_num) (List.Chain'.cons (by norm_num)
      (List.Chain'.cons (by norm_num) (List.chain'_singleton 1)))
  · intro t ht
    fin_cases ht <;> norm_num

end Foodshop
